import Mathlib

/-!
Shallow embedding of the event-intake and delayed-action scheduling core of
`src/index.js` (a Shopify-webhook → WhatsApp notification relay), together
with proofs about the claims of its specification.

Modelling conventions:
* JS objects used as string-keyed maps (`checkouts`, `locks`, review-record
  maps) are association lists `List (String × α)` with JS semantics:
  `objGet` is property read, `objSet` is property assignment (overwrite the
  unique existing binding in place, else append), `objDelete` is the JS
  `delete` operator.
* Persisted JSON files are `Option Json` (`none` = missing file or a read /
  parse failure caught by the surrounding `try`).
* JS numbers for timestamps are `Int` (no claim depends on float rounding).
* JS string truthiness: a string is truthy iff it is nonempty; a number is
  truthy iff it is nonzero.
* Network calls (the DoubleTick `send`, Shopify order fetches) are modelled
  by outcome parameters: a `Bool` (or `String → Bool`) saying whether the
  call succeeded, with resolved values (e.g. the delivery recipient) passed
  as parameters.
-/

namespace Shopify

/-- Minimal JSON value model, the contents of the durable datasets. -/
inductive Json where
  | null
  | bool (b : Bool)
  | num (n : Int)
  | str (s : String)
  | arr (elems : List Json)
  | obj (fields : List (String × Json))
deriving Repr

/-- JS `SameValueZero` comparison as used by `Set` membership: primitives
compare by value; freshly parsed objects and arrays are never identical. -/
def jsSameValue : Json → Json → Bool
  | .null, .null => true
  | .bool a, .bool b => a == b
  | .num a, .num b => a == b
  | .str a, .str b => a == b
  | _, _ => false

/-- JS truthiness of a string (`""` is falsy). -/
def jsTruthyStr (s : String) : Bool := s ≠ ""

/-- JS `a || b` on strings. -/
def jsOrStr (a b : String) : String := if jsTruthyStr a then a else b

/-- JS truthiness of an optional number (`undefined`, `NaN` and `0` are falsy). -/
def jsTruthyNumOpt : Option Int → Bool
  | none => false
  | some n => n ≠ 0

/-- Property read on a JS object modelled as an association list. -/
def objGet (m : List (String × α)) (k : String) : Option α :=
  match m with
  | [] => none
  | e :: rest => if e.1 = k then some e.2 else objGet rest k

/-- Property assignment on a JS object: overwrite the (unique) existing
binding in place, else append. -/
def objSet (m : List (String × α)) (k : String) (v : α) : List (String × α) :=
  match m with
  | [] => [(k, v)]
  | e :: rest => if e.1 = k then (k, v) :: rest else e :: objSet rest k v

/-- The JS `delete obj[k]` operator. -/
def objDelete (m : List (String × α)) (k : String) : List (String × α) :=
  m.filter (fun e => e.1 != k)

theorem objGet_objSet_self (m : List (String × α)) (k : String) (v : α) :
    objGet (objSet m k v) k = some v := by
  induction m with
  | nil => simp [objSet, objGet]
  | cons e rest ih =>
    by_cases h : e.1 = k <;> simp [objSet, objGet, h, ih]

theorem objGet_objSet_ne (m : List (String × α)) (k k' : String) (v : α)
    (h : k' ≠ k) : objGet (objSet m k v) k' = objGet m k' := by
  have hkk : ¬(k = k') := fun h' => h h'.symm
  induction m with
  | nil => simp [objSet, objGet, hkk]
  | cons e rest ih =>
    by_cases hek : e.1 = k
    · subst hek
      simp [objSet, objGet, hkk]
    · by_cases hek' : e.1 = k' <;> simp [objSet, objGet, hek, hek', ih, h, hkk]

theorem objGet_objDelete_self (m : List (String × α)) (k : String) :
    objGet (objDelete m k) k = none := by
  induction m with
  | nil => simp [objDelete, objGet]
  | cons e rest ih =>
    by_cases h : e.1 = k <;>
      simp only [objDelete, List.filter_cons] at * <;>
      simp [h, objGet, ih]

theorem objGet_objDelete_ne (m : List (String × α)) (k k' : String)
    (h : k' ≠ k) : objGet (objDelete m k) k' = objGet m k' := by
  have hkk : ¬(k = k') := fun h' => h h'.symm
  induction m with
  | nil => simp [objDelete, objGet]
  | cons e rest ih =>
    by_cases hek : e.1 = k
    · have hek' : ¬(e.1 = k') := by
        rw [hek]; exact fun h' => h h'.symm
      simp only [objDelete, List.filter_cons] at *
      simp [hek, objGet, hek', ih, hkk]
    · by_cases hek' : e.1 = k' <;>
        simp only [objDelete, List.filter_cons] at * <;>
        simp [hek, hek', objGet, ih, h, hkk]

theorem objDelete_of_objGet_none (m : List (String × α)) (k : String)
    (h : objGet m k = none) : objDelete m k = m := by
  induction m with
  | nil => simp [objDelete]
  | cons e rest ih =>
    rw [objGet] at h
    by_cases hek : e.1 = k
    · simp [hek] at h
    · simp only [if_neg hek] at h
      simp only [objDelete, List.filter_cons] at *
      simp [hek, ih h]

theorem objSet_of_objGet_none (m : List (String × α)) (k : String) (v : α)
    (h : objGet m k = none) : objSet m k v = m ++ [(k, v)] := by
  induction m with
  | nil => simp [objSet]
  | cons e rest ih =>
    rw [objGet] at h
    by_cases hek : e.1 = k
    · simp [hek] at h
    · simp only [if_neg hek] at h
      simp [objSet, hek, ih h]

/-- Acquiring then releasing a previously-absent key restores the table. -/
theorem objDelete_objSet_of_none (m : List (String × α)) (k : String) (v : α)
    (h : objGet m k = none) : objDelete (objSet m k v) k = m := by
  rw [objSet_of_objGet_none m k v h]
  have hm : objDelete m k = m := objDelete_of_objGet_none m k h
  simp only [objDelete, List.filter_append] at *
  simp [hm]

theorem mem_of_objGet_eq_some {m : List (String × α)} {k : String} {v : α}
    (h : objGet m k = some v) : (k, v) ∈ m := by
  induction m with
  | nil => simp [objGet] at h
  | cons e rest ih =>
    rw [objGet] at h
    by_cases hek : e.1 = k
    · simp only [if_pos hek] at h
      obtain ⟨e1, e2⟩ := e
      simp only at hek h
      obtain rfl := hek
      obtain rfl : e2 = v := by simpa using h
      exact List.mem_cons_self _ _
    · simp only [if_neg hek] at h
      exact List.mem_cons_of_mem _ (ih h)

/-! ### Durable key-value store loaders (src/index.js:416-424, 528-538, 1791-1809) -/

/-- Membership test of a JS `Set` built from parsed JSON (SameValueZero). -/
def setMemberOf (s : List Json) (x : Json) : Bool := s.any (fun y => jsSameValue y x)

/-- The JS `Set.add` / `Set` constructor step: append unless already present. -/
def setInsert (s : List Json) (x : Json) : List Json :=
  if setMemberOf s x then s else s ++ [x]

/-- Building `new Set(xs)` from an iterable: insert elements in order. -/
def setFromList (xs : List Json) : List Json := xs.foldl setInsert []

/-- Embeds `loadSet(filePath, "set")` (src/index.js:416-424): parse the file
and build `new Set(data)`; a missing/corrupt file, or a parse result that is
not iterable (`new Set` throws, caught by the same `try`), yields the empty
set. A JSON string is iterable in JS: `new Set` of it yields its characters;
`null`/`undefined` yield an empty set. -/
def loadSet (file : Option Json) : List Json :=
  match file with
  | some (.arr xs) => setFromList xs
  | some (.str s) => setFromList (s.data.map (fun c => .str (String.mk [c])))
  | _ => []

/-- Embeds `saveSet(filePath, dataset, item, "set")` (src/index.js:438-441):
add the item to the set and overwrite the file with `Array.from(set)`. -/
def saveSet (dataset : List Json) (item : Json) : Option Json :=
  some (.arr (setInsert dataset item))

/-- Embeds `loadLocks()` (src/index.js:528-534): the parse result itself, or
`{}` when reading/parsing fails. -/
def loadLocksJson (file : Option Json) : Json :=
  match file with
  | some j => j
  | none => .obj []

/-- JS `typeof x === "object"` (true for objects, arrays and `null`). -/
def jsTypeofIsObject : Json → Bool
  | .obj _ => true
  | .arr _ => true
  | .null => true
  | _ => false

/-- JS truthiness of a JSON value. -/
def jsTruthyJson : Json → Bool
  | .null => false
  | .bool b => b
  | .num n => n ≠ 0
  | .str s => s ≠ ""
  | _ => true

/-- Embeds `loadDeliveryReviewFulfillmentRecords()` (src/index.js:1791-1801):
the parse result if it is a truthy value of `typeof "object"`, else `{}`;
a missing/corrupt file also yields `{}`. -/
def loadDeliveryReviewFulfillmentRecords (file : Option Json) : Json :=
  match file with
  | some j => if jsTruthyJson j && jsTypeofIsObject j then j else .obj []
  | none => .obj []

/-! ### Idempotency ledger (src/index.js:170-179, 1761-1771)

The source functions read the durable file on every call and write it back
after every mark, so the process state *is* the file: a simulated restart
(reloading the store) is literally reading the same `Option Json` again. -/

/-- Embeds `hasDeliveryBeenNotified(key)` (src/index.js:1761-1765). -/
def hasDeliveryBeenNotified (file : Option Json) (key : String) : Bool :=
  setMemberOf (loadSet file) (.str key)

/-- Embeds `markDeliveryNotified(key)` (src/index.js:1767-1771): load the
set, add the key, overwrite the file with `Array.from(set)`. -/
def markDeliveryNotified (file : Option Json) (key : String) : Option Json :=
  some (.arr (setInsert (loadSet file) (.str key)))

/-- Embeds `hasStoreCreditRefundBeenNotified(refundId)` (src/index.js:170-173). -/
def hasStoreCreditRefundBeenNotified (file : Option Json) (refundId : String) : Bool :=
  setMemberOf (loadSet file) (.str refundId)

/-- Embeds `markStoreCreditRefundNotified(refundId)` (src/index.js:175-179). -/
def markStoreCreditRefundNotified (file : Option Json) (refundId : String) : Option Json :=
  some (.arr (setInsert (loadSet file) (.str refundId)))

/-! ### Lock table (src/index.js:540-552)

The locks file holds a JSON object mapping key → `Date.now()`; operationally
we carry it as a typed association list `List (String × Int)`. `lockId`
checks JS truthiness of `locks[id]` (an absent key, like a stored timestamp
of `0`, is falsy), so acquisition stores the current time. -/

abbrev Locks := List (String × Int)

/-- Embeds `lockId(id)` (src/index.js:540-546): returns whether the lock was
acquired, together with the saved lock table. -/
def lockId (locks : Locks) (id : String) (now : Int) : Bool × Locks :=
  if jsTruthyNumOpt (objGet locks id) then (false, locks)
  else (true, objSet locks id now)

/-- Embeds `unlockId(id)` (src/index.js:548-552). -/
def unlockId (locks : Locks) (id : String) : Locks := objDelete locks id

/-! ### Debounce / coalescing queue (src/index.js:426-442, 1164-1218)

A checkout body is modelled by the fields the core reads; absent JS fields
are the empty string (JS `||` treats `undefined` and `""` alike). -/

structure Checkout where
  cart_token : String
  /-- `checkout.shipping_address?.phone` -/
  shipping_phone : String
  /-- `checkout.phone` -/
  phone : String
  /-- `checkout.email` -/
  email : String
deriving DecidableEq, Repr

/-- A `DebouncedEntity`: the stored snapshot plus its `updatedAt` stamp. -/
structure DebEntry where
  checkout : Checkout
  updatedAt : Int
deriving DecidableEq, Repr

abbrev DebouncedCheckouts := List (String × DebEntry)

/-- The digits of a string, JS `String(v).replace(/\D/g, "")`. -/
def digitsOnly (s : String) : String := String.mk (s.data.filter Char.isDigit)

/-- The contact-info check of the debounce evaluator (src/index.js:1178-1183):
a phone (shipping phone, else checkout phone) with at least 10 digits, or a
nonempty email. -/
def hasContactInfo (c : Checkout) : Bool :=
  10 ≤ (digitsOnly (jsOrStr c.shipping_phone c.phone)).length || jsTruthyStr c.email

/-- Embeds the `/webhook/abandoned-checkouts` handler (src/index.js:1202-1218)
composed with `saveSet(..., "debounced")` (src/index.js:426-437): ignore a
body without a truthy `cart_token`, else overwrite the entity for that token
with the new payload and a fresh `updatedAt`.  The handler acknowledges 200
unconditionally before this. -/
def abandonedCheckoutsWebhook (q : DebouncedCheckouts) (checkout : Checkout)
    (now : Int) : DebouncedCheckouts :=
  if ¬jsTruthyStr checkout.cart_token then q
  else objSet q checkout.cart_token ⟨checkout, now⟩

/-- A burst of updates: each pair is a payload with its arrival time. -/
def recordBurst (q : DebouncedCheckouts) (updates : List (Checkout × Int)) :
    DebouncedCheckouts :=
  updates.foldl (fun q u => abandonedCheckoutsWebhook q u.1 u.2) q

/-- Embeds one run of the periodic debounce evaluator
(src/index.js:1164-1200): scan a snapshot of the stored entities; every
entity whose age reaches the configured delay is deleted, and
`verifyCheckout` is invoked for it when it has contact info.  Returns the
saved queue and, paired with their cart tokens, the payloads passed to the
verification callback, in invocation order. -/
def debounceTickStep (now delay : Int)
    (acc : DebouncedCheckouts × List (String × Checkout)) (e : String × DebEntry) :
    DebouncedCheckouts × List (String × Checkout) :=
  if delay ≤ now - e.2.updatedAt then
    if hasContactInfo e.2.checkout then
      (objDelete acc.1 e.1, acc.2 ++ [(e.1, e.2.checkout)])
    else (objDelete acc.1 e.1, acc.2)
  else acc

def debounceTick (q : DebouncedCheckouts) (now delay : Int) :
    DebouncedCheckouts × List (String × Checkout) :=
  q.foldl (debounceTickStep now delay) (q, [])

/-! ### Delayed-action scheduler: review messages (src/index.js:1811-2072)

`ReviewRecord` embeds the persisted record of
`delivery-review-fulfillments.json`.  The ISO-string mirrors of the
millisecond fields (`deliveredAt`, `reviewMessageSentAt`, `updatedAt`) are
derived display copies of `deliveredAtMs` / `reviewMessageSentAtMs` /
the write time and are omitted.  `reviewMessageSent` is the `fired` flag. -/

structure Recipient where
  name : String
  countryCode : String
  digits : String
  source : String
deriving DecidableEq, Repr

structure ReviewRecord where
  fulfillmentId : String
  orderId : Int
  orderName : String
  deliveredAtMs : Int
  recipient : Recipient
  reviewMessageSent : Bool
  reviewMessageSentAtMs : Option Int
deriving DecidableEq, Repr

/-- One line of a fire-and-forget `.jsonl` audit log (its `event`, `result`
and `reason` fields; the free-form payload fields are omitted). -/
structure LogEntry where
  event : String
  result : String
  reason : String
deriving DecidableEq, Repr

/-- The mutable state the scheduler paths touch: the review-records file,
the locks file and the review audit log. -/
structure ReviewState where
  records : List (String × ReviewRecord)
  locks : Locks
  log : List LogEntry
deriving DecidableEq, Repr

/-- Embeds `getReviewDelayMs()` (src/index.js:1816-1819): the parsed
`REVIEW_DELAY_MS` env var when it is a finite number (`none` models unset or
not-a-number), else 4 days. -/
def getReviewDelayMs (env : Option Int) : Int :=
  match env with
  | some d => d
  | none => 4 * 24 * 60 * 60 * 1000

/-- Embeds the `deliveredAtMs` fallback chain of
`upsertDeliveryReviewRecordFromFulfillment` (src/index.js:1897-1901):
`parseDateMs(updated_at) || parseDateMs(delivered_at) || Number(receivedAtMs)
|| Date.now()` (a failed parse is `none`; `0` is falsy). -/
def resolveDeliveredAtMs (updatedAtMs deliveredAtMs : Option Int)
    (receivedAtMs now : Int) : Int :=
  if jsTruthyNumOpt updatedAtMs then updatedAtMs.getD 0
  else if jsTruthyNumOpt deliveredAtMs then deliveredAtMs.getD 0
  else if receivedAtMs ≠ 0 then receivedAtMs
  else now

/-- Removes the first occurrence of a character, JS `s.replace("#", "")`. -/
def removeFirstChar (c : Char) : List Char → List Char
  | [] => []
  | x :: xs => if x = c then xs else x :: removeFirstChar c xs

/-- JS `fulfillment.name.replace("#", "").split(".")[0]`. -/
def stripOrderName (s : String) : String :=
  String.mk ((removeFirstChar '#' s.data).takeWhile (· ≠ '.'))

/-- The in-memory review timers `__reviewTimersByFulfillmentId`
(src/index.js:121), keyed by fulfillment id, each holding its `dueAtMs`.
Timers do not survive a restart. -/
abbrev ReviewTimers := List (String × Int)

/-- Embeds `scheduleReviewSendForFulfillmentId(fulfillmentId, deliveredAtMs)`
(src/index.js:1869-1889): replace any pending timer for the id with one due
`delayMs` after the given delivered time (`none` models a non-finite
argument, which falls back to `Date.now()`). -/
def scheduleReviewSendForFulfillmentId (timers : ReviewTimers)
    (fulfillmentId : String) (deliveredAtMs : Option Int) (now delayMs : Int) :
    ReviewTimers :=
  if ¬jsTruthyStr fulfillmentId then timers
  else
    let dueAtMs := (match deliveredAtMs with | some d => d | none => now) + delayMs
    objSet timers fulfillmentId dueAtMs

/-- Embeds `attemptSendReviewForFulfillmentId(fulfillmentId)`
(src/index.js:1821-1867).  `sendOk` is the outcome of the collaborator call
`sendOrderReviewRequestForRecord` (false = it threw: network/provider error
or a missing-precondition error).  Returns the state after the `finally`
release together with whether the collaborator call was reached. -/
def attemptSendReviewForFulfillmentId (st : ReviewState) (fulfillmentId : String)
    (now delayMs : Int) (sendOk : Bool) : ReviewState × Bool :=
  if ¬jsTruthyStr fulfillmentId then (st, false)
  else
    let lockKey := "review_send:" ++ fulfillmentId
    let acq := lockId st.locks lockKey now
    if ¬acq.1 then (st, false)
    else
      let st1 : ReviewState := { st with locks := acq.2 }
      match objGet st1.records fulfillmentId with
      | none => ({ st1 with locks := unlockId st1.locks lockKey }, false)
      | some rec =>
        if rec.reviewMessageSent then
          ({ st1 with locks := unlockId st1.locks lockKey }, false)
        else if now - delayMs < rec.deliveredAtMs then
          ({ st1 with locks := unlockId st1.locks lockKey }, false)
        else if sendOk then
          let rec2 : ReviewRecord :=
            { rec with reviewMessageSent := true, reviewMessageSentAtMs := some now }
          ({ st1 with
              records := objSet st1.records fulfillmentId rec2,
              log := st1.log ++ [⟨"review_message_sent", "notified", ""⟩],
              locks := unlockId st1.locks lockKey }, true)
        else
          ({ st1 with
              log := st1.log ++ [⟨"review_message_sent", "error", ""⟩],
              locks := unlockId st1.locks lockKey }, true)

/-- The due-stamp merge of the upsert (src/index.js:1917-1921): keep the
previous delivered stamp when it is *greater* than the incoming one, else
take the incoming one — i.e. the maximum of the two (a fresh record takes
the incoming stamp; `Number(undefined)` is `NaN`, which is not finite). -/
def upsertNextDeliveredAtMs (prev : Option ReviewRecord) (deliveredAtMs : Int) : Int :=
  match prev with
  | some p =>
    if p.deliveredAtMs > deliveredAtMs then p.deliveredAtMs else deliveredAtMs
  | none => deliveredAtMs

/-- The merged record the upsert writes (src/index.js:1923-1940). -/
def upsertMergedRecord (prev : Option ReviewRecord) (orderId : Int)
    (fulfillmentId orderName : String) (recipient : Recipient)
    (nextDeliveredAtMs : Int) : ReviewRecord :=
  let prevRecipName := match prev with | some p => p.recipient.name | none => ""
  let prevRecipCC := match prev with | some p => p.recipient.countryCode | none => ""
  let prevRecipDigits := match prev with | some p => p.recipient.digits | none => ""
  let prevRecipSource := match prev with | some p => p.recipient.source | none => ""
  { fulfillmentId := fulfillmentId
    orderId := orderId
    orderName := orderName
    deliveredAtMs := nextDeliveredAtMs
    recipient :=
      { name := jsOrStr recipient.name (jsOrStr prevRecipName "Customer")
        countryCode := jsOrStr recipient.countryCode (jsOrStr prevRecipCC "IN")
        digits := jsOrStr recipient.digits prevRecipDigits
        source := jsOrStr recipient.source (jsOrStr prevRecipSource "unknown") }
    reviewMessageSent := match prev with | some p => p.reviewMessageSent | none => false
    reviewMessageSentAtMs :=
      match prev with
      | some p => match p.reviewMessageSentAtMs with
        | some v => if v = 0 then none else some v
        | none => none
      | none => none }

/-- Embeds `upsertDeliveryReviewRecordFromFulfillment(fulfillment, receivedAtMs)`
(src/index.js:1891-1965).  The fulfillment's fields arrive already resolved:
`fulfillmentId` is `String(fulfillment.id)` (`""` when absent), `orderId` is
`fulfillment.order_id` (`0` when absent), and `recipient` is the value the
network-backed `resolveDeliveryRecipient` returned.  Returns the updated
state and timer map. -/
def upsertDeliveryReviewRecordFromFulfillment (st : ReviewState)
    (timers : ReviewTimers) (orderId : Int) (fulfillmentId : String)
    (fulfillmentName : String) (updatedAtMs deliveredAtMsField : Option Int)
    (recipient : Recipient) (receivedAtMs now delayMs : Int) :
    ReviewState × ReviewTimers :=
  if orderId = 0 then (st, timers)
  else if ¬jsTruthyStr fulfillmentId then (st, timers)
  else
    let deliveredAtMs :=
      resolveDeliveredAtMs updatedAtMs deliveredAtMsField receivedAtMs now
    let orderName :=
      if jsTruthyStr fulfillmentName then stripOrderName fulfillmentName
      else toString orderId
    let lockKey := "delivery_review_capture:" ++ fulfillmentId
    let acq := lockId st.locks lockKey now
    if ¬acq.1 then (st, timers)
    else
      let st1 : ReviewState := { st with locks := acq.2 }
      let prev := objGet st1.records fulfillmentId
      let nextDeliveredAtMs := upsertNextDeliveredAtMs prev deliveredAtMs
      let newRec := upsertMergedRecord prev orderId fulfillmentId orderName
        recipient nextDeliveredAtMs
      let st2 : ReviewState :=
        { st1 with
            records := objSet st1.records fulfillmentId newRec,
            log := st1.log ++ [⟨"delivery_captured", "ok", ""⟩] }
      let timers2 :=
        scheduleReviewSendForFulfillmentId timers fulfillmentId
          (some nextDeliveredAtMs) now delayMs
      ({ st2 with locks := unlockId st2.locks lockKey }, timers2)

/-- The per-record guards of the sweep loop (src/index.js:2056-2063): a
truthy `orderId` and `fulfillmentId`, a finite `deliveredAtMs` (always so
here), not yet fired, and due. -/
def reviewSweepEligible (now delayMs : Int) (rec : ReviewRecord) : Bool :=
  rec.orderId ≠ 0 && jsTruthyStr rec.fulfillmentId && !rec.reviewMessageSent
    && !(now - delayMs < rec.deliveredAtMs)

/-- Embeds `runReviewSchedulerOnce()` (src/index.js:2033-2072).  `enabled` is
the `REVIEW_SCHEDULER_ENABLED` check, `running` the `__reviewSchedulerRunning`
re-entrancy flag.  The loop iterates over the snapshot of records loaded
after taking the scheduler lock and calls `attemptSendReviewForFulfillmentId`
for every eligible record.  Returns the final state and the fulfillment ids
for which the send attempt was invoked, in order. -/
def reviewSweepStep (now delayMs : Int) (sendOk : String → Bool)
    (acc : ReviewState × List String) (e : String × ReviewRecord) :
    ReviewState × List String :=
  if reviewSweepEligible now delayMs e.2 then
    ((attemptSendReviewForFulfillmentId acc.1 e.2.fulfillmentId now delayMs
        (sendOk e.2.fulfillmentId)).1,
     acc.2 ++ [e.2.fulfillmentId])
  else acc

def runReviewSchedulerOnce (st : ReviewState) (now delayMs : Int)
    (enabled running : Bool) (sendOk : String → Bool) :
    ReviewState × List String :=
  if ¬enabled then (st, [])
  else if running then (st, [])
  else
    let acq := lockId st.locks "review_scheduler" now
    if ¬acq.1 then (st, [])
    else
      let st1 : ReviewState := { st with locks := acq.2 }
      let result := st1.records.foldl (reviewSweepStep now delayMs sendOk) (st1, [])
      ({ result.1 with locks := unlockId result.1.locks "review_scheduler" },
       result.2)

/-! ### Event dispatcher (src/index.js:135-168, 1577-1589, 2074-2220) -/

/-- Embeds `verifyShopifyWebhookHmac(req)` (src/index.js:135-168).  The
HMAC-SHA256-base64 computation is an oracle parameter; `secret` models the
`SHOPIFY_WEBHOOK_SECRET || SHOPIFY_API_SECRET || SHOPIFY_API_SECRET_KEY`
chain (`""` = all unset); `hmacHeader` is the signature header with the
function's initial `.trim()` already applied (a whitespace-only header
arrives here as `""`).  A missing/blank header or missing secret fails;
otherwise the digest is compared to the header by a length check plus
`crypto.timingSafeEqual`, i.e. byte equality. -/
def verifyShopifyWebhookHmac (hmacSha256Base64 : String → String → String)
    (secret hmacHeader rawBody : String) : Bool :=
  if ¬jsTruthyStr hmacHeader then false
  else if ¬jsTruthyStr secret then false
  else hmacSha256Base64 secret rawBody == hmacHeader

/-- Embeds the `isLikelyValidWhatsAppNumberDigits` check (src/index.js:298-302). -/
def isLikelyValidWhatsAppNumberDigits (digits : String) : Bool :=
  jsTruthyStr digits && 10 ≤ digits.length

/-- Embeds `app.post("/webhook/order-confirmation")` (src/index.js:1577-1589):
acknowledge 200 unconditionally, then route — invoke
`sendLowStockNotification` and `sendOrderConfirmation` — unless the order id
is already in the in-memory processed set.  The handler reads no signature
header; `hmacHeader` and `rawBody` are parameters only to exhibit that the
response and routing do not depend on them.  Returns the response status and
whether the event was routed. -/
def orderConfirmationWebhook (processedOrders : List Json)
    (hmacHeader rawBody : String) (orderId : String) : Nat × Bool :=
  (200, !setMemberOf processedOrders (.str orderId))

/-- Environment of the webhook dispatcher. -/
structure WebhookEnv where
  /-- `ALLOW_UNVERIFIED_SHOPIFY_WEBHOOKS === "true"` -/
  allowUnverified : Bool
  /-- `process.env.SHOPIFY_DOMAIN` (`""` = unset) -/
  shopifyDomain : String
  /-- the webhook secret chain (`""` = unset) -/
  webhookSecret : String
  /-- HMAC-SHA256-base64 oracle -/
  hmacSha256Base64 : String → String → String

/-- An inbound `fulfillments/update` request with its header and payload
fields already shape-resolved the way the handler reads them: `topic`,
`shopDomain` and `hmacHeader` carry the handler's `.trim()` applied,
`shipment_status` is `fulfillment?.shipment_status || payload?.shipment_status
|| ""`, `fulfillment_id` is the string of `fulfillment.id` (`""` = absent),
`order_id` is `0` when absent, `tracking_number` is the value
`pickFirstTrackingNumber` resolves from the tracking fields. -/
structure FulfillmentsUpdateReq where
  topic : String
  shopDomain : String
  hmacHeader : String
  rawBody : String
  shipment_status : String
  order_id : Int
  fulfillment_id : String
  fulfillment_name : String
  updated_at_ms : Option Int
  delivered_at_ms : Option Int
  tracking_number : String

/-- All mutable state the fulfillments-update path touches: the review
subsystem state, the in-memory review timers, the processed-deliveries file
and the delivery-webhook audit log. -/
structure DispatchState where
  review : ReviewState
  timers : ReviewTimers
  deliveries : Option Json
  webhookLog : List LogEntry

/-- Embeds `handleFulfillmentsUpdateWebhook(req, res)` (src/index.js:2074-2217).
`recipient` is the value `resolveDeliveryRecipient(fulfillment)` resolves,
`sendOk` the outcome of the DoubleTick call inside
`sendDeliveryNotification`.  The fire-and-forget capture and the
notification branch are sequenced in program order.  Returns the response
status, the final state, and whether the collaborator send was reached. -/
def handleFulfillmentsUpdateWebhook (env : WebhookEnv) (st : DispatchState)
    (req : FulfillmentsUpdateReq) (recipient : Recipient)
    (now delayMs : Int) (sendOk : Bool) : Nat × DispatchState × Bool :=
  if jsTruthyStr req.topic && req.topic != "fulfillments/update" then
    (200, { st with webhookLog :=
      st.webhookLog ++ [⟨"fulfillments/update", "ignored", "wrong_topic"⟩] }, false)
  else if jsTruthyStr env.shopifyDomain && jsTruthyStr req.shopDomain
      && req.shopDomain != env.shopifyDomain then
    (200, { st with webhookLog :=
      st.webhookLog ++ [⟨"fulfillments/update", "ignored", "wrong_shop_domain"⟩] }, false)
  else if ¬env.allowUnverified
      && ¬verifyShopifyWebhookHmac env.hmacSha256Base64 env.webhookSecret
          req.hmacHeader req.rawBody then
    (401, { st with webhookLog :=
      st.webhookLog ++ [⟨"fulfillments/update", "rejected", "invalid_hmac"⟩] }, false)
  else if req.shipment_status != "delivered" then
    (200, st, false)
  else
    let idKey :=
      if jsTruthyStr req.fulfillment_id then req.fulfillment_id
      else (if req.order_id ≠ 0 then toString req.order_id else "unknown")
        ++ ":" ++
        (if jsTruthyStr req.tracking_number then req.tracking_number else "unknown")
    let up := upsertDeliveryReviewRecordFromFulfillment st.review st.timers
      req.order_id req.fulfillment_id req.fulfillment_name req.updated_at_ms
      req.delivered_at_ms recipient now now delayMs
    let st1 : DispatchState := { st with review := up.1, timers := up.2 }
    if hasDeliveryBeenNotified st1.deliveries idKey then
      (200, { st1 with webhookLog :=
        st1.webhookLog ++ [⟨"fulfillments/update", "ignored", "already_notified"⟩] }, false)
    else
      let lockKey := "delivery:" ++ idKey
      let acq := lockId st1.review.locks lockKey now
      if ¬acq.1 then
        (200, { st1 with webhookLog :=
          st1.webhookLog ++ [⟨"fulfillments/update", "ignored", "locked"⟩] }, false)
      else
        let st2 : DispatchState := { st1 with review := { st1.review with locks := acq.2 } }
        let unlockedOf := fun (s : DispatchState) =>
          { s with review := { s.review with locks := unlockId s.review.locks lockKey } }
        if hasDeliveryBeenNotified st2.deliveries idKey then
          (200, unlockedOf st2, false)
        else if ¬isLikelyValidWhatsAppNumberDigits recipient.digits then
          (200, unlockedOf { st2 with webhookLog :=
            st2.webhookLog ++ [⟨"fulfillments/update", "error", ""⟩] }, false)
        else if sendOk then
          (200, unlockedOf { st2 with
            deliveries := markDeliveryNotified st2.deliveries idKey,
            webhookLog := st2.webhookLog ++ [⟨"fulfillments/update", "notified", ""⟩] }, true)
        else
          (200, unlockedOf { st2 with webhookLog :=
            st2.webhookLog ++ [⟨"fulfillments/update", "error", ""⟩] }, true)

/-! ### Set-semantics lemmas -/

theorem jsSameValue_refl_str (s : String) : jsSameValue (.str s) (.str s) = true := by
  simp [jsSameValue]

theorem jsSameValue_trans {a b c : Json} (h1 : jsSameValue a b = true)
    (h2 : jsSameValue b c = true) : jsSameValue a c = true := by
  cases a <;> cases b <;> cases c <;> simp_all [jsSameValue]

theorem setMemberOf_append (s l : List Json) (x : Json) :
    setMemberOf (s ++ l) x = (setMemberOf s x || setMemberOf l x) := by
  simp [setMemberOf, List.any_append]

theorem setMemberOf_setInsert_mono (s : List Json) (x y : Json)
    (h : setMemberOf s x = true) : setMemberOf (setInsert s y) x = true := by
  unfold setInsert
  by_cases hm : setMemberOf s y = true
  · simp [hm, h]
  · simp only [hm, if_neg]
    simp [setMemberOf_append, h]

theorem setMemberOf_setInsert_self (s : List Json) (x : Json)
    (hx : jsSameValue x x = true) : setMemberOf (setInsert s x) x = true := by
  unfold setInsert
  by_cases hm : setMemberOf s x = true
  · simp [hm]
  · simp only [hm, if_neg]
    simp [setMemberOf_append, setMemberOf, hx]

theorem setMemberOf_setInsert (s : List Json) (x y : Json) :
    setMemberOf (setInsert s y) x = (setMemberOf s x || jsSameValue y x) := by
  by_cases hm : setMemberOf s y = true
  · rw [setInsert, if_pos hm]
    by_cases hyx : jsSameValue y x = true
    · obtain ⟨z, hz, hzy⟩ := by simpa [setMemberOf] using hm
      have hx : setMemberOf s x = true := by
        simp only [setMemberOf, List.any_eq_true]
        exact ⟨z, hz, jsSameValue_trans hzy hyx⟩
      simp [hx]
    · simp [Bool.eq_false_iff.mpr hyx]
  · rw [setInsert, if_neg hm]
    simp [setMemberOf_append, setMemberOf]

theorem setMemberOf_setFromList_aux (l : List Json) :
    ∀ (acc : List Json) (x : Json),
      setMemberOf (l.foldl setInsert acc) x
        = (setMemberOf acc x || setMemberOf l x) := by
  induction l with
  | nil => intro acc x; simp [setMemberOf]
  | cons a l ih =>
    intro acc x
    simp only [List.foldl_cons, ih]
    rw [setMemberOf_setInsert]
    simp [setMemberOf, Bool.or_assoc]

theorem setMemberOf_setFromList (xs : List Json) (x : Json) :
    setMemberOf (setFromList xs) x = setMemberOf xs x := by
  unfold setFromList
  rw [setMemberOf_setFromList_aux]
  simp [setMemberOf]

/-! ### Claim C7: lock table mutual exclusion -/

/-- Claim C7: `tryAcquire` (`lockId`) returns true and creates a Lock when
no Lock for the key exists; it returns false without modifying the lock
table when a Lock (with its stored `Date.now()` acquisition stamp, which is
nonzero for any real clock) exists; hence after one caller acquires the key
every further `tryAcquire` returns false — at most one holder per key —
until `release` (`unlockId`) deletes the Lock, after which acquisition
succeeds again. -/
theorem lock_table_mutual_exclusion (locks : Locks) (k : String) (t : Int)
    (habsent : objGet locks k = none) (ht : t ≠ 0) :
    (lockId locks k t).1 = true
    ∧ objGet (lockId locks k t).2 k = some t
    ∧ (∀ m : Locks, ∀ t0 v : Int, objGet m k = some v → v ≠ 0 →
        lockId m k t0 = (false, m))
    ∧ (∀ t2 : Int, lockId (lockId locks k t).2 k t2 = (false, (lockId locks k t).2))
    ∧ unlockId (lockId locks k t).2 k = locks
    ∧ (∀ t2 : Int, (lockId (unlockId (lockId locks k t).2 k) k t2).1 = true) := by
  have hfalsy : jsTruthyNumOpt (objGet locks k) = false := by
    rw [habsent]; rfl
  have hacq : lockId locks k t = (true, objSet locks k t) := by
    simp [lockId, hfalsy]
  have hget : objGet (objSet locks k t) k = some t := objGet_objSet_self _ _ _
  have hheld : ∀ m : Locks, ∀ t0 v : Int, objGet m k = some v → v ≠ 0 →
      lockId m k t0 = (false, m) := by
    intro m t0 v hv hvne
    simp [lockId, jsTruthyNumOpt, hv, hvne]
  refine ⟨by rw [hacq], by rw [hacq]; exact hget, hheld, ?_, ?_, ?_⟩
  · intro t2
    rw [hacq]
    exact hheld _ t2 t hget ht
  · rw [hacq]
    exact objDelete_objSet_of_none locks k t habsent
  · intro t2
    rw [hacq, show unlockId (objSet locks k t) k = locks from
      objDelete_objSet_of_none locks k t habsent]
    simp [lockId, hfalsy]

/-- Witness for C7 at a concrete lock table. -/
theorem lock_table_mutual_exclusion_witness :
    (lockId [("other", (3 : Int))] "delivery:42" 5).1 = true
    ∧ objGet (lockId [("other", (3 : Int))] "delivery:42" 5).2 "delivery:42" = some 5
    ∧ unlockId (lockId [("other", (3 : Int))] "delivery:42" 5).2 "delivery:42"
        = [("other", (3 : Int))] := by
  have h := lock_table_mutual_exclusion [("other", (3 : Int))] "delivery:42" 5
    (by decide) (by decide)
  exact ⟨h.1, h.2.1, h.2.2.2.2.1⟩

/-! ### Claim C8: durable store loads default to empty and never throw -/

/-- Claim C8: for each dataset loader, a file holding valid JSON of the
dataset's stored type loads as the parsed stored value (for a set file, a
`Set` with exactly the members of the stored array), while a missing or
corrupt file (`none`, the caught read/parse failure) loads as the empty
default — empty set for `loadSet`, `{}` for `loadLocks` and
`loadDeliveryReviewFulfillmentRecords`.  Every loader is a total function on
the file state: the JS `try`/`catch` converts any throw into the default,
so no call ever propagates an exception. -/
theorem durable_store_load_total_with_defaults :
    (∀ xs : List Json, loadSet (some (.arr xs)) = setFromList xs)
    ∧ (∀ xs x, setMemberOf (loadSet (some (.arr xs))) x = setMemberOf xs x)
    ∧ loadSet none = []
    ∧ (∀ j : Json, loadLocksJson (some j) = j)
    ∧ loadLocksJson none = .obj []
    ∧ (∀ fs, loadDeliveryReviewFulfillmentRecords (some (.obj fs)) = .obj fs)
    ∧ loadDeliveryReviewFulfillmentRecords none = .obj [] := by
  refine ⟨fun xs => rfl, fun xs x => ?_, rfl, fun j => rfl, rfl, fun fs => ?_, rfl⟩
  · rw [show loadSet (some (.arr xs)) = setFromList xs from rfl]
    exact setMemberOf_setFromList xs x
  · simp [loadDeliveryReviewFulfillmentRecords, jsTruthyJson, jsTypeofIsObject]

/-! ### Claim C3: idempotency ledger is monotone and durable -/

/-- Claim C3: for each notification category (the processed-deliveries set
and the processed-store-credit-refunds set, each its own key space), after
`markProcessed` (`markDeliveryNotified` / `markStoreCreditRefundNotified`)
the corresponding `hasProcessed` returns true, and stays true after any
further marks of arbitrary keys.  Both functions reload the durable file on
every call and every mark rewrites it, so the process state *is* the stored
file: the first conjunct of each pair is literally a query against the
freshly (re)loaded store, which is what a restart performs. -/
theorem idempotency_ledger_marks_are_durable (f : Option Json) (k : String) :
    hasDeliveryBeenNotified (markDeliveryNotified f k) k = true
    ∧ (∀ f' k', hasDeliveryBeenNotified f' k = true →
        hasDeliveryBeenNotified (markDeliveryNotified f' k') k = true)
    ∧ hasStoreCreditRefundBeenNotified (markStoreCreditRefundNotified f k) k = true
    ∧ (∀ f' k', hasStoreCreditRefundBeenNotified f' k = true →
        hasStoreCreditRefundBeenNotified (markStoreCreditRefundNotified f' k') k = true) := by
  have hself : ∀ (g : Option Json),
      setMemberOf (loadSet (some (.arr (setInsert (loadSet g) (.str k))))) (.str k) = true := by
    intro g
    rw [show loadSet (some (.arr (setInsert (loadSet g) (.str k))))
        = setFromList (setInsert (loadSet g) (.str k)) from rfl]
    rw [setMemberOf_setFromList]
    exact setMemberOf_setInsert_self _ _ (jsSameValue_refl_str k)
  have hmono : ∀ (g : Option Json) (k' : String),
      setMemberOf (loadSet g) (.str k) = true →
      setMemberOf (loadSet (some (.arr (setInsert (loadSet g) (.str k'))))) (.str k) = true := by
    intro g k' h
    rw [show loadSet (some (.arr (setInsert (loadSet g) (.str k'))))
        = setFromList (setInsert (loadSet g) (.str k')) from rfl]
    rw [setMemberOf_setFromList]
    exact setMemberOf_setInsert_mono _ _ _ h
  exact ⟨hself f, fun f' k' h => hmono f' k' h, hself f, fun f' k' h => hmono f' k' h⟩

/-- Witness for C3 at a concrete store, including a marked-then-restarted
query and preservation under a later mark of a different key. -/
theorem idempotency_ledger_marks_are_durable_witness :
    hasDeliveryBeenNotified (markDeliveryNotified (some (.arr [.str "9"])) "42") "42" = true
    ∧ hasDeliveryBeenNotified
        (markDeliveryNotified (markDeliveryNotified (some (.arr [.str "9"])) "42") "77") "42" = true := by
  have h := idempotency_ledger_marks_are_durable (some (.arr [.str "9"])) "42"
  exact ⟨h.1, h.2.1 (markDeliveryNotified (some (.arr [.str "9"])) "42") "77" h.1⟩

/-! ### Claims C6 and C9: the review send attempt -/

/-- Claim C6: a successful send attempt for a due, unfired record returns
with the collaborator send performed (`.2 = true`), persists the record with
`reviewMessageSent = true`, and releases the per-entity lock; after that,
every further attempt for the same fulfillment id — from the in-memory timer
or from any later sweep, with any collaborator outcome — is a complete no-op:
it returns the state unchanged and performs no send, so the
`fired = false → true` transition and the external send happen at most once
per key. -/
theorem review_send_fires_at_most_once
    (st : ReviewState) (fid : String) (rec : ReviewRecord)
    (now delayMs now2 delayMs2 : Int)
    (hfid : fid ≠ "")
    (hrec : objGet st.records fid = some rec)
    (hunfired : rec.reviewMessageSent = false)
    (hdue : rec.deliveredAtMs ≤ now - delayMs)
    (hlock : objGet st.locks ("review_send:" ++ fid) = none) :
    (attemptSendReviewForFulfillmentId st fid now delayMs true).2 = true
    ∧ objGet (attemptSendReviewForFulfillmentId st fid now delayMs true).1.records fid
        = some { rec with reviewMessageSent := true, reviewMessageSentAtMs := some now }
    ∧ (attemptSendReviewForFulfillmentId st fid now delayMs true).1.locks = st.locks
    ∧ (∀ ok : Bool, attemptSendReviewForFulfillmentId
        (attemptSendReviewForFulfillmentId st fid now delayMs true).1 fid now2 delayMs2 ok
        = ((attemptSendReviewForFulfillmentId st fid now delayMs true).1, false)) := by
  have hfidT : jsTruthyStr fid = true := by simp [jsTruthyStr, hfid]
  have hfalsy : jsTruthyNumOpt (objGet st.locks ("review_send:" ++ fid)) = false := by
    rw [hlock]; rfl
  have hnotlt : ¬(now - delayMs < rec.deliveredAtMs) := not_lt.mpr hdue
  have hunlock : unlockId (objSet st.locks ("review_send:" ++ fid) now)
      ("review_send:" ++ fid) = st.locks :=
    objDelete_objSet_of_none _ _ _ hlock
  have hred : attemptSendReviewForFulfillmentId st fid now delayMs true
      = ({ records := objSet st.records fid
              { rec with reviewMessageSent := true, reviewMessageSentAtMs := some now },
           locks := st.locks,
           log := st.log ++ [⟨"review_message_sent", "notified", ""⟩] }, true) := by
    simp only [attemptSendReviewForFulfillmentId, hfidT, not_true_eq_false,
      Bool.false_eq_true, if_false, lockId, hfalsy, hrec, hunfired, hnotlt, if_true]
    simp [hunlock]
  have hget2 : objGet (objSet st.records fid
      { rec with reviewMessageSent := true, reviewMessageSentAtMs := some now }) fid
      = some { rec with reviewMessageSent := true, reviewMessageSentAtMs := some now } :=
    objGet_objSet_self _ _ _
  refine ⟨by rw [hred], by rw [hred]; exact hget2, by rw [hred], fun ok => ?_⟩
  rw [hred]
  have hunlock2 : unlockId (objSet st.locks ("review_send:" ++ fid) now2)
      ("review_send:" ++ fid) = st.locks :=
    objDelete_objSet_of_none _ _ _ hlock
  simp only [attemptSendReviewForFulfillmentId, hfidT, not_true_eq_false,
    Bool.false_eq_true, if_false, lockId, hfalsy, hget2, if_true]
  simp [hunlock2]

/-- Witness for C6: a concrete due, unfired record is fired once and the
second attempt is a no-op. -/
theorem review_send_fires_at_most_once_witness :
    (attemptSendReviewForFulfillmentId
      ⟨[("10", ⟨"10", 5, "1001", 1000, ⟨"A", "IN", "9198765432100", "s"⟩, false, none⟩)],
        [], []⟩ "10" 500000 1000 true).2 = true := by
  have h := review_send_fires_at_most_once
    ⟨[("10", ⟨"10", 5, "1001", 1000, ⟨"A", "IN", "9198765432100", "s"⟩, false, none⟩)],
      [], []⟩ "10"
    ⟨"10", 5, "1001", 1000, ⟨"A", "IN", "9198765432100", "s"⟩, false, none⟩
    500000 1000 600000 1000 (by decide) (by decide) (by decide) (by decide) (by decide)
  exact h.1

/-- Claim C9: when the collaborator send throws during a due, unfired review
attempt, the error is logged to the review audit log, the per-entity lock is
released (the lock table is exactly as before), and the persisted record is
unchanged — `reviewMessageSent` stays false — so the same attempt, retried by
a later sweep cycle, reaches the collaborator send again. -/
theorem review_send_failure_leaves_record_unfired
    (st : ReviewState) (fid : String) (rec : ReviewRecord) (now delayMs : Int)
    (hfid : fid ≠ "")
    (hrec : objGet st.records fid = some rec)
    (hunfired : rec.reviewMessageSent = false)
    (hdue : rec.deliveredAtMs ≤ now - delayMs)
    (hlock : objGet st.locks ("review_send:" ++ fid) = none) :
    attemptSendReviewForFulfillmentId st fid now delayMs false
      = ({ st with log := st.log ++ [⟨"review_message_sent", "error", ""⟩] }, true)
    ∧ (attemptSendReviewForFulfillmentId
        (attemptSendReviewForFulfillmentId st fid now delayMs false).1
        fid now delayMs true).2 = true := by
  have hfidT : jsTruthyStr fid = true := by simp [jsTruthyStr, hfid]
  have hfalsy : jsTruthyNumOpt (objGet st.locks ("review_send:" ++ fid)) = false := by
    rw [hlock]; rfl
  have hnotlt : ¬(now - delayMs < rec.deliveredAtMs) := not_lt.mpr hdue
  have hunlock : unlockId (objSet st.locks ("review_send:" ++ fid) now)
      ("review_send:" ++ fid) = st.locks :=
    objDelete_objSet_of_none _ _ _ hlock
  have hred : attemptSendReviewForFulfillmentId st fid now delayMs false
      = ({ st with log := st.log ++ [⟨"review_message_sent", "error", ""⟩] }, true) := by
    simp only [attemptSendReviewForFulfillmentId, hfidT, not_true_eq_false,
      Bool.false_eq_true, if_false, lockId, hfalsy, hrec, hunfired, hnotlt, if_true]
    simp [hunlock]
  refine ⟨hred, ?_⟩
  rw [hred]
  have hretry := review_send_failure_retry_core st fid rec now delayMs
    hfidT hfalsy hrec hunfired hnotlt hunlock
  exact hretry
where
  review_send_failure_retry_core (st : ReviewState) (fid : String)
      (rec : ReviewRecord) (now delayMs : Int)
      (hfidT : jsTruthyStr fid = true)
      (hfalsy : jsTruthyNumOpt (objGet st.locks ("review_send:" ++ fid)) = false)
      (hrec : objGet st.records fid = some rec)
      (hunfired : rec.reviewMessageSent = false)
      (hnotlt : ¬(now - delayMs < rec.deliveredAtMs))
      (hunlock : unlockId (objSet st.locks ("review_send:" ++ fid) now)
        ("review_send:" ++ fid) = st.locks) :
      (attemptSendReviewForFulfillmentId
        { st with log := st.log ++ [⟨"review_message_sent", "error", ""⟩] }
        fid now delayMs true).2 = true := by
    simp only [attemptSendReviewForFulfillmentId, hfidT, not_true_eq_false,
      Bool.false_eq_true, if_false, lockId, hfalsy, hrec, hunfired, hnotlt, if_true]

/-- Witness for C9: a concrete failing send logs the error, releases the
lock and leaves the record unfired. -/
theorem review_send_failure_leaves_record_unfired_witness :
    attemptSendReviewForFulfillmentId
      ⟨[("10", ⟨"10", 5, "1001", 1000, ⟨"A", "IN", "9198765432100", "s"⟩, false, none⟩)],
        [], []⟩ "10" 500000 1000 false
      = (⟨[("10", ⟨"10", 5, "1001", 1000, ⟨"A", "IN", "9198765432100", "s"⟩, false, none⟩)],
          [], [⟨"review_message_sent", "error", ""⟩]⟩, true) := by
  have h := review_send_failure_leaves_record_unfired
    ⟨[("10", ⟨"10", 5, "1001", 1000, ⟨"A", "IN", "9198765432100", "s"⟩, false, none⟩)],
      [], []⟩ "10"
    ⟨"10", 5, "1001", 1000, ⟨"A", "IN", "9198765432100", "s"⟩, false, none⟩
    500000 1000 (by decide) (by decide) (by decide) (by decide) (by decide)
  exact h.1

/-! ### Claim C5: restart recovery by the periodic sweep -/

/-- The ids the sweep loop attempts are exactly the eligible snapshot
records, in order, independent of the states threaded through the loop. -/
theorem reviewSweep_foldl_attempted (now delayMs : Int) (sendOk : String → Bool) :
    ∀ (l : List (String × ReviewRecord)) (s : ReviewState) (acc : List String),
      (l.foldl (reviewSweepStep now delayMs sendOk) (s, acc)).2
        = acc ++ (l.filter (fun e => reviewSweepEligible now delayMs e.2)).map
            (fun e => e.2.fulfillmentId) := by
  intro l
  induction l with
  | nil => intro s acc; simp
  | cons e l ih =>
    intro s acc
    by_cases he : reviewSweepEligible now delayMs e.2 = true
    · rw [List.foldl_cons, show reviewSweepStep now delayMs sendOk (s, acc) e
          = ((attemptSendReviewForFulfillmentId s e.2.fulfillmentId now delayMs
              (sendOk e.2.fulfillmentId)).1, acc ++ [e.2.fulfillmentId]) from by
            simp [reviewSweepStep, he]]
      rw [ih]
      simp [List.filter_cons, he]
    · rw [List.foldl_cons, show reviewSweepStep now delayMs sendOk (s, acc) e = (s, acc)
          from by simp [reviewSweepStep, he]]
      rw [ih]
      simp [List.filter_cons, he]

/-- Claim C5: a review record with `reviewMessageSent = false` whose due time
(`deliveredAtMs + delayMs`) has passed, present in the freshly loaded durable
store — no in-memory timer is consulted anywhere in the sweep, which models a
restart — is picked up by the next `runReviewSchedulerOnce` cycle: the sweep
invokes the review send attempt (`attemptSendReviewForFulfillmentId`, the
scheduled action) for that record's fulfillment id.  The scheduler is
enabled, not already mid-run, and its own sweep lock is free. -/
theorem restart_recovery_sweep_attempts_due_action
    (st : ReviewState) (now delayMs : Int) (sendOk : String → Bool)
    (k : String) (rec : ReviewRecord)
    (hmem : (k, rec) ∈ st.records)
    (hfid : rec.fulfillmentId ≠ "")
    (hoid : rec.orderId ≠ 0)
    (hunfired : rec.reviewMessageSent = false)
    (hdue : rec.deliveredAtMs ≤ now - delayMs)
    (hsched : objGet st.locks "review_scheduler" = none) :
    rec.fulfillmentId ∈ (runReviewSchedulerOnce st now delayMs true false sendOk).2 := by
  have hfalsy : jsTruthyNumOpt (objGet st.locks "review_scheduler") = false := by
    rw [hsched]; rfl
  have helig : reviewSweepEligible now delayMs rec = true := by
    simp [reviewSweepEligible, hoid, jsTruthyStr, hfid, hunfired, not_lt.mpr hdue]
  have hsnd : (runReviewSchedulerOnce st now delayMs true false sendOk).2
      = (st.records.filter (fun e => reviewSweepEligible now delayMs e.2)).map
          (fun e => e.2.fulfillmentId) := by
    simp only [runReviewSchedulerOnce, not_true_eq_false, Bool.false_eq_true,
      if_false, lockId, hfalsy]
    rw [reviewSweep_foldl_attempted]
    simp
  rw [hsnd]
  exact List.mem_map.mpr ⟨(k, rec), List.mem_filter.mpr ⟨hmem, helig⟩, rfl⟩

/-- Witness for C5: a concrete overdue unfired record, loaded fresh with an
empty lock table and no timers, is attempted by the next sweep. -/
theorem restart_recovery_sweep_attempts_due_action_witness :
    "10" ∈ (runReviewSchedulerOnce
      ⟨[("10", ⟨"10", 5, "1001", 1000, ⟨"A", "IN", "9198765432100", "s"⟩, false, none⟩)],
        [], []⟩ 500000 1000 true false (fun _ => true)).2 := by
  have h := restart_recovery_sweep_attempts_due_action
    ⟨[("10", ⟨"10", 5, "1001", 1000, ⟨"A", "IN", "9198765432100", "s"⟩, false, none⟩)],
      [], []⟩ 500000 1000 (fun _ => true) "10"
    ⟨"10", 5, "1001", 1000, ⟨"A", "IN", "9198765432100", "s"⟩, false, none⟩
    (by simp) (by decide) (by decide) (by decide) (by decide) (by decide)
  exact h

/-! ### Claim C1: the scheduled review due-stamp merge policy -/

/-- One upsert call, reduced, for a truthy order id and fulfillment id, a
parseable nonzero `updated_at` stamp and a free capture lock. -/
theorem upsert_reduces (st : ReviewState) (timers : ReviewTimers) (oid : Int)
    (fid name : String) (r : Recipient) (t rcv now delayMs : Int)
    (hoid : oid ≠ 0) (hfid : fid ≠ "") (ht : t ≠ 0)
    (hlock : objGet st.locks ("delivery_review_capture:" ++ fid) = none) :
    upsertDeliveryReviewRecordFromFulfillment st timers oid fid name (some t)
        none r rcv now delayMs
      = (⟨objSet st.records fid
            (upsertMergedRecord (objGet st.records fid) oid fid
              (if jsTruthyStr name then stripOrderName name else toString oid) r
              (upsertNextDeliveredAtMs (objGet st.records fid) t)),
          st.locks,
          st.log ++ [⟨"delivery_captured", "ok", ""⟩]⟩,
         objSet timers fid
           (upsertNextDeliveredAtMs (objGet st.records fid) t + delayMs)) := by
  have hfidT : jsTruthyStr fid = true := by simp [jsTruthyStr, hfid]
  have hfalsy : jsTruthyNumOpt (objGet st.locks ("delivery_review_capture:" ++ fid))
      = false := by rw [hlock]; rfl
  have hres : resolveDeliveredAtMs (some t) none rcv now = t := by
    simp [resolveDeliveredAtMs, jsTruthyNumOpt, ht]
  have hunlock : unlockId (objSet st.locks ("delivery_review_capture:" ++ fid) now)
      ("delivery_review_capture:" ++ fid) = st.locks :=
    objDelete_objSet_of_none _ _ _ hlock
  simp only [upsertDeliveryReviewRecordFromFulfillment, hoid, if_neg, hfidT,
    not_true_eq_false, Bool.false_eq_true, if_false, lockId, hfalsy, hres,
    scheduleReviewSendForFulfillmentId, unlockId] at *
  simp [hoid, hunlock, unlockId]

/-- Claim C1 counterexample: for fulfillment key `"10"`, recording a delivery
review from qualifying stamp `t1 = 200000` and then from `t2 = 100000 < t1`
leaves the stored record holding `200000` — the *later* stamp — and the
in-memory timer due at `200000 + delay`, not the earlier stamp `100000` the
claim requires.  The merge at src/index.js:1917-1921 keeps
`prev.deliveredAtMs` exactly when it is *greater* than the incoming stamp,
i.e. it takes the maximum. -/
theorem scheduler_earliest_wins_counterexample :
    let c1 := upsertDeliveryReviewRecordFromFulfillment ⟨[], [], []⟩ [] 5 "10" ""
      (some 200000) none ⟨"", "", "", ""⟩ 1 1 1000
    let c2 := upsertDeliveryReviewRecordFromFulfillment c1.1 c1.2 5 "10" ""
      (some 100000) none ⟨"", "", "", ""⟩ 2 2 1000
    (objGet c2.1.records "10").map ReviewRecord.deliveredAtMs = some 200000
    ∧ ¬((objGet c2.1.records "10").map ReviewRecord.deliveredAtMs = some 100000)
    ∧ objGet c2.2 "10" = some 201000 := by
  refine ⟨rfl, ?_, rfl⟩
  intro h
  simp only [show (objGet
      (upsertDeliveryReviewRecordFromFulfillment
        (upsertDeliveryReviewRecordFromFulfillment ⟨[], [], []⟩ [] 5 "10" ""
          (some 200000) none ⟨"", "", "", ""⟩ 1 1 1000).1
        (upsertDeliveryReviewRecordFromFulfillment ⟨[], [], []⟩ [] 5 "10" ""
          (some 200000) none ⟨"", "", "", ""⟩ 1 1 1000).2
        5 "10" "" (some 100000) none ⟨"", "", "", ""⟩ 2 2 1000).1.records
      "10").map ReviewRecord.deliveredAtMs = some 200000 from rfl] at h
  simp at h

/-- Claim C1 as amended: recording a scheduled review action for key K from
qualifying stamp t1 and then from t2 < t1 leaves the stored record holding
the *later* stamp t1 — the merge keeps the maximum (latest delivery wins,
the same direction as DebouncedEntity's last-write-wins) — and the pending
in-memory timer is due at t1 + delay, so the action fires at the due time
derived from t1, not t2. -/
theorem scheduler_latest_delivery_wins
    (st : ReviewState) (timers : ReviewTimers) (oid : Int) (fid name : String)
    (r : Recipient) (t1 t2 rcv1 rcv2 now1 now2 delayMs : Int)
    (hoid : oid ≠ 0) (hfid : fid ≠ "")
    (hnorec : objGet st.records fid = none)
    (hlock : objGet st.locks ("delivery_review_capture:" ++ fid) = none)
    (ht2 : t2 ≠ 0) (ht1 : t1 ≠ 0) (hlt : t2 < t1) :
    (objGet
      (upsertDeliveryReviewRecordFromFulfillment
        (upsertDeliveryReviewRecordFromFulfillment st timers oid fid name
          (some t1) none r rcv1 now1 delayMs).1
        (upsertDeliveryReviewRecordFromFulfillment st timers oid fid name
          (some t1) none r rcv1 now1 delayMs).2
        oid fid name (some t2) none r rcv2 now2 delayMs).1.records fid).map
        ReviewRecord.deliveredAtMs = some t1
    ∧ objGet
      (upsertDeliveryReviewRecordFromFulfillment
        (upsertDeliveryReviewRecordFromFulfillment st timers oid fid name
          (some t1) none r rcv1 now1 delayMs).1
        (upsertDeliveryReviewRecordFromFulfillment st timers oid fid name
          (some t1) none r rcv1 now1 delayMs).2
        oid fid name (some t2) none r rcv2 now2 delayMs).2 fid
        = some (t1 + delayMs) := by
  rw [upsert_reduces st timers oid fid name r t1 rcv1 now1 delayMs hoid hfid ht1 hlock]
  set oname := if jsTruthyStr name then stripOrderName name else toString oid with honame
  set rec1 := upsertMergedRecord (objGet st.records fid) oid fid oname r
    (upsertNextDeliveredAtMs (objGet st.records fid) t1) with hrec1
  have hd1 : upsertNextDeliveredAtMs (objGet st.records fid) t1 = t1 := by
    rw [hnorec]; rfl
  have hget1 : objGet (objSet st.records fid rec1) fid = some rec1 :=
    objGet_objSet_self _ _ _
  dsimp only
  rw [upsert_reduces
    { records := objSet st.records fid rec1, locks := st.locks,
      log := st.log ++ [{ event := "delivery_captured", result := "ok", reason := "" }] }
    (objSet timers fid (upsertNextDeliveredAtMs (objGet st.records fid) t1 + delayMs))
    oid fid name r t2 rcv2 now2 delayMs hoid hfid ht2 hlock]
  have hrec1d : rec1.deliveredAtMs = t1 := by
    rw [hrec1, hd1]; rfl
  have hd2 : upsertNextDeliveredAtMs (objGet (objSet st.records fid rec1) fid) t2 = t1 := by
    rw [hget1, upsertNextDeliveredAtMs, hrec1d]
    simp [hlt]
  constructor
  · rw [show (objGet (objSet st.records fid rec1) fid : Option ReviewRecord) = some rec1
      from hget1] at *
    rw [hd2]
    rw [objGet_objSet_self]
    rfl
  · rw [hd2, objGet_objSet_self]

/-- Witness for the amended C1: concrete stamps t1 = 200000, t2 = 100000
leave the stored record at 200000. -/
theorem scheduler_latest_delivery_wins_witness :
    (objGet
      (upsertDeliveryReviewRecordFromFulfillment
        (upsertDeliveryReviewRecordFromFulfillment ⟨[], [], []⟩ [] 5 "10" ""
          (some 200000) none ⟨"", "", "", ""⟩ 1 1 1000).1
        (upsertDeliveryReviewRecordFromFulfillment ⟨[], [], []⟩ [] 5 "10" ""
          (some 200000) none ⟨"", "", "", ""⟩ 1 1 1000).2
        5 "10" "" (some 100000) none ⟨"", "", "", ""⟩ 2 2 1000).1.records "10").map
        ReviewRecord.deliveredAtMs = some 200000 := by
  have h := scheduler_latest_delivery_wins ⟨[], [], []⟩ [] 5 "10" "" ⟨"", "", "", ""⟩
    200000 100000 1 2 1 2 1000 (by decide) (by decide) rfl rfl
    (by decide) (by decide) (by decide)
  exact h.1

/-! ### Claim C4: debounce burst coalescing -/

/-- The payloads the tick passes to the verification callback are exactly
the due snapshot entries with contact info, in snapshot order. -/
theorem debounceTick_foldl_callbacks (now delay : Int) :
    ∀ (l : List (String × DebEntry)) (cur : DebouncedCheckouts)
      (out : List (String × Checkout)),
      (l.foldl (debounceTickStep now delay) (cur, out)).2
        = out ++ (l.filter (fun e =>
            decide (delay ≤ now - e.2.updatedAt) && hasContactInfo e.2.checkout)).map
            (fun e => (e.1, e.2.checkout)) := by
  intro l
  induction l with
  | nil => intro cur out; simp
  | cons e l ih =>
    intro cur out
    by_cases hdue : delay ≤ now - e.2.updatedAt
    · by_cases hci : hasContactInfo e.2.checkout = true
      · rw [List.foldl_cons, show debounceTickStep now delay (cur, out) e
            = (objDelete cur e.1, out ++ [(e.1, e.2.checkout)]) from by
              simp [debounceTickStep, hdue, hci]]
        rw [ih]
        simp [List.filter_cons, hdue, hci]
      · rw [List.foldl_cons, show debounceTickStep now delay (cur, out) e
            = (objDelete cur e.1, out) from by simp [debounceTickStep, hdue, hci]]
        rw [ih]
        simp [List.filter_cons, hdue, hci]
    · rw [List.foldl_cons, show debounceTickStep now delay (cur, out) e = (cur, out)
          from by simp [debounceTickStep, hdue]]
      rw [ih]
      simp [List.filter_cons, hdue]

theorem objGet_objDelete_none (m : List (String × α)) (t k : String)
    (h : objGet m k = none) : objGet (objDelete m t) k = none := by
  by_cases hkt : k = t
  · subst hkt; exact objGet_objDelete_self m k
  · rw [objGet_objDelete_ne m t k hkt]; exact h

/-- A key absent from the working queue stays absent through the tick loop. -/
theorem debounceTick_foldl_keeps_none (now delay : Int) (K : String) :
    ∀ (l : List (String × DebEntry)) (cur : DebouncedCheckouts)
      (out : List (String × Checkout)),
      objGet cur K = none →
      objGet (l.foldl (debounceTickStep now delay) (cur, out)).1 K = none := by
  intro l
  induction l with
  | nil => intro cur out h; simpa using h
  | cons e l ih =>
    intro cur out h
    rw [List.foldl_cons]
    by_cases hdue : delay ≤ now - e.2.updatedAt
    · by_cases hci : hasContactInfo e.2.checkout = true
      · rw [show debounceTickStep now delay (cur, out) e
            = (objDelete cur e.1, out ++ [(e.1, e.2.checkout)]) from by
              simp [debounceTickStep, hdue, hci]]
        exact ih _ _ (objGet_objDelete_none _ _ _ h)
      · rw [show debounceTickStep now delay (cur, out) e = (objDelete cur e.1, out)
            from by simp [debounceTickStep, hdue, hci]]
        exact ih _ _ (objGet_objDelete_none _ _ _ h)
    · rw [show debounceTickStep now delay (cur, out) e = (cur, out)
          from by simp [debounceTickStep, hdue]]
      exact ih _ _ h

/-- A due entry's key is removed by the tick loop whatever contact info it
has. -/
theorem debounceTick_foldl_removes (now delay : Int) (K : String) (v : DebEntry)
    (hdue : delay ≤ now - v.updatedAt) :
    ∀ (l : List (String × DebEntry)), (K, v) ∈ l →
      ∀ (cur : DebouncedCheckouts) (out : List (String × Checkout)),
      objGet (l.foldl (debounceTickStep now delay) (cur, out)).1 K = none := by
  intro l
  induction l with
  | nil => intro hmem; simp at hmem
  | cons e l ih =>
    intro hmem cur out
    rw [List.foldl_cons]
    rcases List.mem_cons.mp hmem with heq | hmem2
    · obtain rfl : e = (K, v) := heq.symm
      have hstep : (debounceTickStep now delay (cur, out) (K, v)).1
          = objDelete cur K := by
        by_cases hci : hasContactInfo v.checkout = true <;>
          simp [debounceTickStep, hdue, hci]
      have h0 : objGet (debounceTickStep now delay (cur, out) (K, v)).1 K = none := by
        rw [hstep]; exact objGet_objDelete_self cur K
      have hres := debounceTick_foldl_keeps_none now delay K l
        (debounceTickStep now delay (cur, out) (K, v)).1
        (debounceTickStep now delay (cur, out) (K, v)).2 h0
      simpa using hres
    · exact ih hmem2 _ _

/-- With unique keys, the entries carrying key K are exactly the binding
`objGet` finds. -/
theorem filter_key_eq_of_objGet_some (m : List (String × α)) (K : String) (v : α)
    (hnodup : (m.map Prod.fst).Nodup) (h : objGet m K = some v) :
    m.filter (fun e => e.1 == K) = [(K, v)] := by
  induction m with
  | nil => simp [objGet] at h
  | cons e rest ih =>
    rw [objGet] at h
    have hnd : (e.1 :: rest.map Prod.fst).Nodup := by
      rw [← List.map_cons]; exact hnodup
    obtain ⟨hhead, htail⟩ := List.nodup_cons.mp hnd
    by_cases hek : e.1 = K
    · simp only [if_pos hek] at h
      obtain ⟨e1, e2⟩ := e
      simp only at hek hhead
      subst hek
      obtain rfl : e2 = v := by simpa using h
      rw [List.filter_cons]
      have hrest : rest.filter (fun e => e.1 == e1) = [] := by
        apply List.filter_eq_nil_iff.mpr
        intro p hp
        have hpk : p.1 ≠ e1 := by
          intro hpe
          exact hhead (hpe ▸ List.mem_map.mpr ⟨p, hp, rfl⟩)
        simp [hpk]
      simp [hrest]
    · rw [List.filter_cons]
      simp only [if_neg hek] at h
      have : (e.1 == K) = false := by simp [hek]
      simp only [this, Bool.false_eq_true, if_false]
      exact ih htail h

theorem filter_key_eq_nil_of_objGet_none (m : List (String × α)) (K : String)
    (h : objGet m K = none) : m.filter (fun e => e.1 == K) = [] := by
  induction m with
  | nil => rfl
  | cons e rest ih =>
    rw [objGet] at h
    by_cases hek : e.1 = K
    · simp [hek] at h
    · simp only [if_neg hek] at h
      rw [List.filter_cons]
      have : (e.1 == K) = false := by simp [hek]
      simp [this, ih h]

/-- The key-K part of the tick's callback list, via the two filters. -/
theorem debounceTick_callbacks_for_key (q : DebouncedCheckouts) (now delay : Int)
    (K : String) :
    (debounceTick q now delay).2.filter (fun e => e.1 == K)
      = ((q.filter (fun e => e.1 == K)).filter (fun e =>
          decide (delay ≤ now - e.2.updatedAt) && hasContactInfo e.2.checkout)).map
          (fun e => (e.1, e.2.checkout)) := by
  have hsnd : (debounceTick q now delay).2
      = (q.filter (fun e =>
          decide (delay ≤ now - e.2.updatedAt) && hasContactInfo e.2.checkout)).map
          (fun e => (e.1, e.2.checkout)) := by
    rw [debounceTick, debounceTick_foldl_callbacks]
    simp
  rw [hsnd, List.filter_map, List.filter_filter, List.filter_filter]
  congr 1
  apply List.filter_congr
  intro e _
  simp [Function.comp, Bool.and_comm]

/-- The stored entry after a nonempty burst of updates for key K is the last
payload with its arrival time. -/
theorem recordBurst_objGet (K : String) (hK : K ≠ "") :
    ∀ (updates : List (Checkout × Int)) (q : DebouncedCheckouts)
      (pN : Checkout) (tN : Int),
      updates.getLast? = some (pN, tN) →
      (∀ u ∈ updates, u.1.cart_token = K) →
      objGet (recordBurst q updates) K = some ⟨pN, tN⟩ := by
  intro updates
  induction updates with
  | nil => intro q pN tN hlast; simp at hlast
  | cons u us ih =>
    intro q pN tN hlast hall
    cases us with
    | nil =>
      obtain rfl : u = (pN, tN) := by simpa using hlast
      have hu : pN.cart_token = K := hall (pN, tN) (by simp)
      show objGet (abandonedCheckoutsWebhook q pN tN) K = some ⟨pN, tN⟩
      rw [abandonedCheckoutsWebhook, hu]
      have : jsTruthyStr K = true := by simp [jsTruthyStr, hK]
      rw [if_neg (by simp [this])]
      exact objGet_objSet_self _ _ _
    | cons v vs =>
      rw [show recordBurst q (u :: v :: vs)
          = recordBurst (abandonedCheckoutsWebhook q u.1 u.2) (v :: vs) from rfl]
      exact ih _ pN tN (by simpa using hlast)
        (fun w hw => hall w (List.mem_cons_of_mem _ hw))

/-- Claim C4 counterexample: a single `recordUpdate` for cart token "K"
whose payload has no contact info (no phone digits, no email), followed by
the configured delay elapsing, removes the DebouncedEntity from the queue
but invokes the verification callback zero times — not exactly once with
the final payload, as the claim requires for every burst.  The evaluator at
src/index.js:1185-1193 deletes the entry in both branches but calls
`verifyCheckout` only when the contact-info check passes. -/
theorem debounce_callback_counterexample :
    (debounceTick (abandonedCheckoutsWebhook [] ⟨"K", "", "", ""⟩ 0)
      3600000 3600000).2 = []
    ∧ objGet (debounceTick (abandonedCheckoutsWebhook [] ⟨"K", "", "", ""⟩ 0)
      3600000 3600000).1 "K" = none := ⟨rfl, rfl⟩

/-- Claim C4 as amended: for every burst of `recordUpdate(K, p1..pN)` calls
with no later update for K, once the configured delay has elapsed since the
last update the evaluator removes K's DebouncedEntity from the queue, and —
provided the final payload pN carries contact info (a phone with at least 10
digits or a nonempty email) — invokes the verification callback exactly once
for the whole burst, with the final payload pN; a final payload without
contact info is removed without any callback.  A subsequent evaluator run
invokes no further callback for K. -/
theorem debounce_burst_callback_once
    (q0 : DebouncedCheckouts) (updates : List (Checkout × Int))
    (K : String) (pN : Checkout) (tN now delay now2 : Int)
    (hK : K ≠ "")
    (hnodup : ((recordBurst q0 updates).map Prod.fst).Nodup)
    (hlast : updates.getLast? = some (pN, tN))
    (hall : ∀ u ∈ updates, u.1.cart_token = K)
    (hdue : delay ≤ now - tN) :
    ((debounceTick (recordBurst q0 updates) now delay).2.filter (fun e => e.1 == K)
      = if hasContactInfo pN then [(K, pN)] else [])
    ∧ objGet (debounceTick (recordBurst q0 updates) now delay).1 K = none
    ∧ (debounceTick (debounceTick (recordBurst q0 updates) now delay).1
        now2 delay).2.filter (fun e => e.1 == K) = [] := by
  have hget : objGet (recordBurst q0 updates) K = some ⟨pN, tN⟩ :=
    recordBurst_objGet K hK updates q0 pN tN hlast hall
  have hfilter : (recordBurst q0 updates).filter (fun e => e.1 == K)
      = [(K, ⟨pN, tN⟩)] :=
    filter_key_eq_of_objGet_some _ K _ hnodup hget
  have hmem : (K, (⟨pN, tN⟩ : DebEntry)) ∈ recordBurst q0 updates :=
    mem_of_objGet_eq_some hget
  have hremoved : objGet (debounceTick (recordBurst q0 updates) now delay).1 K
      = none := by
    rw [debounceTick]
    exact debounceTick_foldl_removes now delay K ⟨pN, tN⟩ hdue _ hmem _ _
  refine ⟨?_, hremoved, ?_⟩
  · rw [debounceTick_callbacks_for_key, hfilter]
    by_cases hci : hasContactInfo pN = true
    · simp [List.filter_cons, hdue, hci]
    · simp [List.filter_cons, hdue, hci]
  · rw [debounceTick_callbacks_for_key,
      filter_key_eq_nil_of_objGet_none _ K hremoved]
    rfl

/-- Witness for the amended C4: a concrete two-update burst whose final
payload has an email is verified exactly once with that final payload, and
a second evaluator run does nothing further for the key. -/
theorem debounce_burst_callback_once_witness :
    ((debounceTick (recordBurst []
        [(⟨"K", "9876543210", "", ""⟩, 0), (⟨"K", "", "", "a@b.c"⟩, 50)])
        3600050 3600000).2.filter (fun e => e.1 == "K")
      = [("K", ⟨"K", "", "", "a@b.c"⟩)])
    ∧ objGet (debounceTick (recordBurst []
        [(⟨"K", "9876543210", "", ""⟩, 0), (⟨"K", "", "", "a@b.c"⟩, 50)])
        3600050 3600000).1 "K" = none := by
  have h := debounce_burst_callback_once []
    [(⟨"K", "9876543210", "", ""⟩, 0), (⟨"K", "", "", "a@b.c"⟩, 50)]
    "K" ⟨"K", "", "", "a@b.c"⟩ 50 3600050 3600000 7200050
    (by decide) (by decide) (by decide) (by decide) (by decide)
  refine ⟨?_, h.2.1⟩
  rw [h.1]
  decide

/-! ### Claims C2 and C10: the webhook boundary -/

/-- Claim C2 counterexample: the `/webhook/order-confirmation` event endpoint
never checks a signature.  A POST with a *missing* signature header (which
`verifyShopifyWebhookHmac` rejects, first conjunct) is nevertheless answered
with 200 and routed — `sendLowStockNotification` and `sendOrderConfirmation`
are invoked (second conjunct) — contradicting the claim that every event
endpoint responds unauthorized and does not route on a missing/mismatched
signature.  The same holds for the abandoned-checkouts, fulfillment-creation
and order-cancellation endpoints; only fulfillments-update and refunds-create
verify. -/
theorem webhook_signature_counterexample :
    verifyShopifyWebhookHmac (fun s b => "digest:" ++ s ++ ":" ++ b)
      "secret" "" "{}" = false
    ∧ orderConfirmationWebhook [] "" "{}" "42" = (200, true) := by
  constructor
  · rfl
  · rfl

/-- Claim C2 as amended: for the endpoints that do verify — here the
fulfillments-update handler, with the refunds-create handler implementing
the identical guard — when unverified mode is off and the topic and
shop-domain checks pass, a missing signature header or one different from
the HMAC-SHA256 of the raw body under the shared secret yields a 401
unauthorized response, a `rejected/invalid_hmac` audit-log line, and no
routing: the review records, timers, processed-deliveries set and lock
table are untouched and no collaborator send occurs.  The other event
endpoints (order-confirmation, abandoned-checkouts, fulfillment-creation,
order-cancellation) do not verify signatures at all. -/
theorem fulfillments_update_rejects_invalid_signature
    (env : WebhookEnv) (st : DispatchState) (req : FulfillmentsUpdateReq)
    (recipient : Recipient) (now delayMs : Int) (sendOk : Bool)
    (hunv : env.allowUnverified = false)
    (hbad : req.hmacHeader = ""
      ∨ env.hmacSha256Base64 env.webhookSecret req.rawBody ≠ req.hmacHeader)
    (htopic : req.topic = "" ∨ req.topic = "fulfillments/update")
    (hdomain : env.shopifyDomain = "" ∨ req.shopDomain = ""
      ∨ req.shopDomain = env.shopifyDomain) :
    handleFulfillmentsUpdateWebhook env st req recipient now delayMs sendOk
      = (401, { st with webhookLog := st.webhookLog
          ++ [⟨"fulfillments/update", "rejected", "invalid_hmac"⟩] }, false) := by
  have hver : verifyShopifyWebhookHmac env.hmacSha256Base64 env.webhookSecret
      req.hmacHeader req.rawBody = false := by
    rcases hbad with hb | hb
    · simp [verifyShopifyWebhookHmac, hb, jsTruthyStr]
    · by_cases hsec : env.webhookSecret = ""
      · simp [verifyShopifyWebhookHmac, hsec, jsTruthyStr]
      · by_cases hh : req.hmacHeader = ""
        · simp [verifyShopifyWebhookHmac, hh, jsTruthyStr]
        · simp [verifyShopifyWebhookHmac, jsTruthyStr, hh, hsec, hb]
  have hg1 : (jsTruthyStr req.topic && req.topic != "fulfillments/update") = false := by
    rcases htopic with h | h <;> simp [jsTruthyStr, h]
  have hg2 : (jsTruthyStr env.shopifyDomain && jsTruthyStr req.shopDomain
      && req.shopDomain != env.shopifyDomain) = false := by
    rcases hdomain with h | h | h <;> simp [jsTruthyStr, h]
  simp [handleFulfillmentsUpdateWebhook, hg1, hg2, hver, hunv]

/-- Witness for the amended C2: a concrete request with a wrong signature
header is rejected with 401, only the rejection is logged, and nothing is
routed. -/
theorem fulfillments_update_rejects_invalid_signature_witness :
    handleFulfillmentsUpdateWebhook
      ⟨false, "shop.example", "sec", fun s b => "mac:" ++ s ++ ":" ++ b⟩
      ⟨⟨[], [], []⟩, [], none, []⟩
      ⟨"fulfillments/update", "shop.example", "WRONG", "{}", "delivered", 5, "10",
        "", some 100, none, ""⟩
      ⟨"A", "IN", "9876543210", "s"⟩ 1 1000 true
      = (401, ⟨⟨[], [], []⟩, [], none,
          [⟨"fulfillments/update", "rejected", "invalid_hmac"⟩]⟩, false) := by
  have h := fulfillments_update_rejects_invalid_signature
    ⟨false, "shop.example", "sec", fun s b => "mac:" ++ s ++ ":" ++ b⟩
    ⟨⟨[], [], []⟩, [], none, []⟩
    ⟨"fulfillments/update", "shop.example", "WRONG", "{}", "delivered", 5, "10",
      "", some 100, none, ""⟩
    ⟨"A", "IN", "9876543210", "s"⟩ 1 1000 true
    rfl (Or.inr (by decide)) (Or.inr rfl) (Or.inr (Or.inr rfl))
  exact h

/-- Claim C10: an authenticated `fulfillments/update` webhook whose
`shipment_status` is not `"delivered"` is acknowledged with 200 and handled
no further: the returned state is exactly the input state — no delivery
record, no review record, no timer, no ledger entry, no lock, and not even
an audit-log line — and no collaborator send is attempted. -/
theorem fulfillments_update_non_delivered_noop
    (env : WebhookEnv) (st : DispatchState) (req : FulfillmentsUpdateReq)
    (recipient : Recipient) (now delayMs : Int) (sendOk : Bool)
    (htopic : req.topic = "" ∨ req.topic = "fulfillments/update")
    (hdomain : env.shopifyDomain = "" ∨ req.shopDomain = ""
      ∨ req.shopDomain = env.shopifyDomain)
    (hauth : env.allowUnverified = true
      ∨ verifyShopifyWebhookHmac env.hmacSha256Base64 env.webhookSecret
          req.hmacHeader req.rawBody = true)
    (hstatus : req.shipment_status ≠ "delivered") :
    handleFulfillmentsUpdateWebhook env st req recipient now delayMs sendOk
      = (200, st, false) := by
  have hg1 : (jsTruthyStr req.topic && req.topic != "fulfillments/update") = false := by
    rcases htopic with h | h <;> simp [jsTruthyStr, h]
  have hg2 : (jsTruthyStr env.shopifyDomain && jsTruthyStr req.shopDomain
      && req.shopDomain != env.shopifyDomain) = false := by
    rcases hdomain with h | h | h <;> simp [jsTruthyStr, h]
  rcases hauth with ha | ha
  · simp [handleFulfillmentsUpdateWebhook, hg1, hg2, ha, hstatus]
  · simp [handleFulfillmentsUpdateWebhook, hg1, hg2, ha, hstatus]

/-- Witness for C10: a concrete authenticated `in_transit` update returns
200 with the state bit-for-bit unchanged and no send. -/
theorem fulfillments_update_non_delivered_noop_witness :
    handleFulfillmentsUpdateWebhook
      ⟨false, "shop.example", "sec", fun s b => "mac:" ++ s ++ ":" ++ b⟩
      ⟨⟨[], [], []⟩, [], none, []⟩
      ⟨"fulfillments/update", "shop.example", "mac:sec:{}", "{}", "in_transit",
        5, "10", "", some 100, none, ""⟩
      ⟨"A", "IN", "9876543210", "s"⟩ 1 1000 true
      = (200, ⟨⟨[], [], []⟩, [], none, []⟩, false) := by
  have h := fulfillments_update_non_delivered_noop
    ⟨false, "shop.example", "sec", fun s b => "mac:" ++ s ++ ":" ++ b⟩
    ⟨⟨[], [], []⟩, [], none, []⟩
    ⟨"fulfillments/update", "shop.example", "mac:sec:{}", "{}", "in_transit",
      5, "10", "", some 100, none, ""⟩
    ⟨"A", "IN", "9876543210", "s"⟩ 1 1000 true
    (Or.inr rfl) (Or.inr (Or.inr rfl)) (Or.inr (by decide)) (by decide)
  exact h

end Shopify
